import Mathlib

/-!
Verification of the slappy message-dispatch core (`slappy/__init__.py`).

Python strings are modelled as `List Char`, Python dicts as association
lists with first-occurrence lookup and in-place overwrite on assignment
(matching CPython dict semantics for unique keys), and side effects
(outbound `chat.postMessage` calls) as explicit lists of argument maps.
The two fixed regexes of `Dispatcher.parse_mention` are translated
construct-by-construct; user-supplied listener/action regexes are
modelled abstractly as their two observable matching behaviours
(`re.match` with and without `re.IGNORECASE`), with a literal-pattern
instance used for concrete inputs.
-/

namespace Slappy

/-- Python strings, modelled as lists of characters. -/
abbrev Str := List Char

/-- Shorthand to write a modelled Python string from a Lean literal. -/
def pyS (s : String) : Str := s.data

/-- `\w` of Python `re`, restricted to ASCII word characters
(`[a-zA-Z0-9_]`); slack user ids are ASCII alphanumeric, so the
non-ASCII part of `\w` is never exercised. -/
def isWordChar (c : Char) : Bool := c.isAlphanum || c = '_'

/-- `\s` of Python `re`: space, tab, newline, carriage return,
vertical tab, form feed. -/
def pySpace (c : Char) : Bool :=
  c = ' ' || c = '\t' || c = '\n' || c = '\r' || c = '\x0b' || c = '\x0c'

/-- `.` of Python `re` (without `re.DOTALL`): any character except a
newline. -/
def dotChar (c : Char) : Bool := decide (c ≠ '\n')

/-- Python runtime values, as far as the dispatch core inspects them:
`Listener.process` branches on `type(result) == str`,
`type(result) == dict` and truthiness, so we carry the constructors
needed to distinguish those cases. -/
inductive PyVal where
  | pnone
  | str (s : Str)
  | dict (entries : List (Str × PyVal))
  | int (n : Int)
  | bool (b : Bool)
  | list (elems : List PyVal)

/-- Python truthiness of a `PyVal` (`bool(v)`). -/
def truthy : PyVal → Bool
  | .pnone => false
  | .str s => !s.isEmpty
  | .dict d => !d.isEmpty
  | .int n => decide (n ≠ 0)
  | .bool b => b
  | .list l => !l.isEmpty

/-- `type(v) == str`. -/
def isStr : PyVal → Bool
  | .str _ => true
  | _ => false

/-- `type(v) == dict`. -/
def isDict : PyVal → Bool
  | .dict _ => true
  | _ => false

/-- Python `repr` of a string (single-quoted form, as printed inside
containers). -/
def pyReprS (s : Str) : Str := '\'' :: s ++ ['\'']

mutual

/-- Python `str(v)`, as used by `'...{}'.format(result)` at the
`Bad listener result` raise site and by `str(e)` in `Bot.process_message`. -/
def pyStr : PyVal → Str
  | .pnone => pyS "None"
  | .str s => s
  | .int n => (toString n).data
  | .bool b => if b then pyS "True" else pyS "False"
  | .dict l => '\x7b' :: (pyStrEntries l ++ ['\x7d'])
  | .list l => '[' :: (pyStrElems l ++ [']'])

/-- Python `repr(v)`: strings are quoted, every other inspected type
prints as its `str` form. -/
def pyReprV : PyVal → Str
  | .str s => pyReprS s
  | .pnone => pyS "None"
  | .int n => (toString n).data
  | .bool b => if b then pyS "True" else pyS "False"
  | .dict l => '\x7b' :: (pyStrEntries l ++ ['\x7d'])
  | .list l => '[' :: (pyStrElems l ++ [']'])

/-- Entries of a dict as printed by Python (`'k': v` comma-separated). -/
def pyStrEntries : List (Str × PyVal) → Str
  | [] => []
  | [(k, v)] => pyReprS k ++ pyS ": " ++ pyReprV v
  | (k, v) :: rest => pyReprS k ++ pyS ": " ++ pyReprV v ++ pyS ", " ++ pyStrEntries rest

/-- Elements of a list as printed by Python. -/
def pyStrElems : List PyVal → Str
  | [] => []
  | [v] => pyReprV v
  | v :: rest => pyReprV v ++ pyS ", " ++ pyStrElems rest

end

/-- The exceptions raised by the dispatch core (the source raises plain
`Exception` values; the spec names them `HandlerContractError`,
`UnknownActionError`, `DuplicateRegistrationError`). `typeError` models
the `TypeError` Python itself raises when `msg.reply(**result)` is
called with a dict lacking a `text` key. -/
inductive PyErr where
  | badListenerResult (r : PyVal)
  | typeError
  | unknownAction
  | duplicateCommand (name : Str)

/-- `str(e)` for each modelled exception, matching the messages built at
the raise sites in the source. -/
def PyErr.toStr : PyErr → Str
  | .badListenerResult r => pyS "Bad listener result: " ++ pyStr r
  | .typeError => pyS "reply() missing 1 required positional argument: " ++ pyReprS (pyS "text")
  | .unknownAction => pyS "unknown action"
  | .duplicateCommand n => pyS "Duplicate command " ++ n

/-- First-occurrence lookup in a Python dict modelled as an association
list (`d[k]` / `d.get(k)`). -/
def assocGet {α : Type} : List (Str × α) → Str → Option α
  | [], _ => none
  | (k2, v) :: rest, k => if k2 = k then some v else assocGet rest k

/-- Key membership in a Python dict (`k in d`). -/
def hasKeyL {α : Type} : List (Str × α) → Str → Bool
  | [], _ => false
  | (k2, _) :: rest, k => if k2 = k then true else hasKeyL rest k

/-- Python dict assignment `d[k] = v`: overwrite the existing entry in
place, otherwise append (CPython preserves insertion order). -/
def setKey {α : Type} (k : Str) (v : α) : List (Str × α) → List (Str × α)
  | [] => [(k, v)]
  | (k2, v2) :: rest => if k2 = k then (k, v) :: rest else (k2, v2) :: setKey k v rest

/-- Removal of a key, used to model `**kwargs` binding (the `text` entry
is bound to the positional parameter, the rest become `kwargs`). -/
def removeKey {α : Type} (k : Str) : List (Str × α) → List (Str × α)
  | [] => []
  | (k2, v) :: rest => if k2 = k then removeKey k rest else (k2, v) :: removeKey k rest

/-- The inbound event payload (`msg.body`): a Python dict with string
values for the fields the core reads (`type`, `text`, `channel`,
`channel_type`, `thread_ts`, `bot_id`, ...). -/
abbrev Body := List (Str × Str)

/-- `body.get(k)`. -/
def bodyGet (b : Body) (k : Str) : Option Str := assocGet b k

/-- `k in body`. -/
def bodyHasKey (b : Body) (k : Str) : Bool := hasKeyL b k

/-- `body[k]` for fields the collaborator contract guarantees present
(spec section 6); absence would be a `KeyError` in Python, which the
spec rules out for the accessed fields, so the model totalises with the
empty string. -/
def bodyGetS (b : Body) (k : Str) : Str := (bodyGet b k).getD []

/-- `Message`: wraps one inbound payload (the Slack client handle is an
injected capability and carries no state the core reads). -/
structure Message where
  body : Body

/-- One outbound `chat.postMessage` call, recorded as its keyword
argument map. -/
abbrev ReplyCall := List (Str × PyVal)

/-- `Message.is_text_message`: payload type is `message` and a `text`
field is present. -/
def Message.is_text_message (m : Message) : Bool :=
  if bodyGet m.body (pyS "type") = some (pyS "message") then
    bodyHasKey m.body (pyS "text")
  else false

/-- `Message.reply(text, **kwargs)`: build the argument dict from
`kwargs`, then assign `text`, `channel` (always the originating
channel), and `thread_ts` when the source event is threaded. The
api-call transport is the external collaborator; the call is recorded.
-/
def Message.reply (m : Message) (text : PyVal) (kwargs : List (Str × PyVal)) : ReplyCall :=
  let args := setKey (pyS "text") text kwargs
  let args := setKey (pyS "channel") (.str (bodyGetS m.body (pyS "channel"))) args
  if bodyHasKey m.body (pyS "thread_ts") then
    setKey (pyS "thread_ts") (.str (bodyGetS m.body (pyS "thread_ts"))) args
  else args

/-- Captures of a regex match: `match.groups()`; an unmatched optional
group is `None`. -/
abbrev Caps := List (Option Str)

/-- A compiled user-supplied regex, modelled by its two observable
matching behaviours against the start of a text: `cs` is
`re.match(pattern, text)` (case-sensitive, as used by
`Dispatcher.process_action`), `ci` is
`re.match(pattern, text, flags=re.IGNORECASE)` (as used by
`Listener.match`). -/
structure Regex where
  cs : Str → Option Caps
  ci : Str → Option Caps

/-- Case-sensitive prefix match of a literal (escape-free) pattern:
`re.match` semantics for a pattern with no regex metacharacters. -/
def litMatch (pat text : Str) : Option Caps :=
  if pat.isPrefixOf text then some [] else none

/-- Case-insensitive prefix match of a literal pattern. -/
def litMatchCI (pat text : Str) : Option Caps :=
  if (pat.map Char.toLower).isPrefixOf (text.map Char.toLower) then some [] else none

/-- The `Regex` denoted by a literal (metacharacter-free) pattern. -/
def litRegex (pat : Str) : Regex := ⟨litMatch pat, litMatchCI pat⟩

/-- `Listener`: one pattern-to-handler binding. The handler is modelled
as a pure function from the message and the captures to its Python
return value (handler-initiated side effects go through the injected
reply capability and are the handler's own calls, outside the core). -/
structure Listener where
  regex : Regex
  f : Message → Caps → PyVal
  mention_only : Bool

/-- `Listener.match(text)`: `re.match(self.regex, text, flags=re.IGNORECASE)`. -/
def Listener.matchText (l : Listener) (text : Str) : Option Caps :=
  l.regex.ci text

/-- `Listener.process(msg, match)`: call the handler, then normalise the
result — a `str` is sent verbatim as the reply text, a `dict` is
splatted into `msg.reply(**result)`, any other truthy value raises
`Bad listener result`, and any other falsy value does nothing. -/
def Listener.process (l : Listener) (m : Message) (caps : Caps) : List ReplyCall × Option PyErr :=
  match l.f m caps with
  | .str s => ([Message.reply m (.str s) []], none)
  | .dict dd =>
    match assocGet dd (pyS "text") with
    | some t => ([Message.reply m t (removeKey (pyS "text") dd)], none)
    | none => ([], some .typeError)
  | r => if truthy r then ([], some (.badListenerResult r)) else ([], none)

/-- An action rule (`Dispatcher.register_action` stores
`{'regex': regex, 'f': f}`); the handler receives the raw payload and
the captures. -/
structure ActionRule where
  regex : Regex
  f : Body → Caps → PyVal

/-- `Dispatcher`: ordered listener and action lists, a name-keyed
command map, the bot id and the configured alternate names. -/
structure Dispatcher where
  listeners : List Listener
  actions : List ActionRule
  commands : List (Str × (Body → PyVal))
  alt_names : List Str
  bot_id : Str

/-- `Dispatcher.register_listener`. -/
def Dispatcher.register_listener (d : Dispatcher) (l : Listener) : Dispatcher :=
  { d with listeners := d.listeners ++ [l] }

/-- `Dispatcher.register_action`. -/
def Dispatcher.register_action (d : Dispatcher) (r : Regex) (f : Body → Caps → PyVal) : Dispatcher :=
  { d with actions := d.actions ++ [⟨r, f⟩] }

/-- `Dispatcher.register_command`: raise `Duplicate command` when the
name is already registered, otherwise add the handler under the name. -/
def Dispatcher.register_command (d : Dispatcher) (name : Str) (f : Body → PyVal) :
    Except PyErr Dispatcher :=
  if hasKeyL d.commands name then .error (.duplicateCommand name)
  else .ok { d with commands := d.commands ++ [(name, f)] }

/-- `re.match(r'<@(\w+)>,?\s*(.*)', text)`, translated construct by
construct: literal `<@`, a nonempty greedy run of word characters
(group 1), literal `>`, an optional comma, a greedy run of whitespace,
then group 2 — everything up to the first newline (`.` does not match
newlines). Returns `groups()` on success. -/
def parseMentionMatch (t : Str) : Option (Str × Str) :=
  if t.take 2 = ['<', '@'] then
    let rest0 := t.drop 2
    let idRun := rest0.takeWhile isWordChar
    let rest1 := rest0.dropWhile isWordChar
    if idRun ≠ [] ∧ rest1.head? = some '>' then
      let rest2 := rest1.tail
      let rest3 := if rest2.head? = some ',' then rest2.tail else rest2
      some (idRun, (rest3.dropWhile pySpace).takeWhile dotChar)
    else none
  else none

/-- Case-insensitive literal prefix strip, the meaning of one escaped
alternative of the alt-names regex under `re.IGNORECASE`. -/
def dropPrefixCI : Str → Str → Option Str
  | [], t => some t
  | _ :: _, [] => none
  | n :: ns, c :: cs => if n.toLower = c.toLower then dropPrefixCI ns cs else none

/-- One alternative of
`re.match('(?:' + alt_names_regex + ')' + r',\s*(.*)', text, flags=re.IGNORECASE)`:
the escaped name (case-insensitive), a required comma, greedy
whitespace, then group 1 up to the first newline. -/
def altTryOne (name t : Str) : Option Str :=
  match dropPrefixCI name t with
  | some r => if r.head? = some ',' then some ((r.tail.dropWhile pySpace).takeWhile dotChar) else none
  | none => none

/-- The full alt-names alternation: alternatives are tried left to
right at position 0, and the first one whose required comma also
matches wins (regex backtracking over a literal alternation). -/
def altNamesMatch : List Str → Str → Option Str
  | [], _ => none
  | n :: ns, t =>
    match altTryOne n t with
    | some r => some r
    | none => altNamesMatch ns t

/-- The alt-names phase of `Dispatcher.parse_mention`: skipped entirely
when `self.alt_names` is falsy (the empty list), otherwise a successful
alternation match yields `(True, group 1)` and a failure leaves the
text unchanged. -/
def parseMentionAlt (altNames : List Str) (t : Str) : Bool × Str :=
  if altNames = [] then (false, t)
  else
    match altNamesMatch altNames t with
    | some r => (true, r)
    | none => (false, t)

/-- `Dispatcher.parse_mention(text)`: try the explicit `<@id>` form
first — a match whose id equals the configured bot id returns
`(True, short_text)`; any other outcome falls through to the alt-names
phase on the original text. -/
def parse_mention (bid : Str) (altNames : List Str) (t : Str) : Bool × Str :=
  match parseMentionMatch t with
  | some (uid, short) => if uid = bid then (true, short) else parseMentionAlt altNames t
  | none => parseMentionAlt altNames t

/-- The skip test of the listener loop:
`listener.mention_only and (not mentioned and not direct)`. -/
def skipListener (mentioned direct : Bool) (l : Listener) : Bool :=
  l.mention_only && (!mentioned && !direct)

/-- The canned no-match reply text. -/
def fallbackText : Str := pyS "Не понимаю."

/-- `direct = msg.body['channel_type'] == 'app_home'`. -/
def directOf (m : Message) : Bool :=
  decide (bodyGetS m.body (pyS "channel_type") = pyS "app_home")

/-- The listener loop of `Dispatcher.process_message`: skip mention-only
listeners on unaddressed messages, invoke the first matching listener
and return, and after an exhausted scan send the canned reply iff the
message was mentioned or direct. -/
def scanListeners (m : Message) (mentioned direct : Bool) (text : Str) :
    List Listener → List ReplyCall × Option PyErr
  | [] =>
    if mentioned || direct then ([Message.reply m (.str fallbackText) []], none)
    else ([], none)
  | l :: ls =>
    if skipListener mentioned direct l then scanListeners m mentioned direct text ls
    else
      match l.matchText text with
      | none => scanListeners m mentioned direct text ls
      | some caps => Listener.process l m caps

/-- Instrumented view of the same loop: the index, listener and
captures of the listener that fires, if any. -/
def firedListener (mentioned direct : Bool) (text : Str) :
    List Listener → Option (Nat × Listener × Caps)
  | [] => none
  | l :: ls =>
    if skipListener mentioned direct l then
      (firedListener mentioned direct text ls).map (fun p => (p.1 + 1, p.2))
    else
      match l.matchText text with
      | none => (firedListener mentioned direct text ls).map (fun p => (p.1 + 1, p.2))
      | some caps => some (0, l, caps)

/-- `Dispatcher.process_message(msg)`: guard on `is_text_message`,
resolve the mention, compute directness, then scan the listeners. -/
def Dispatcher.process_message (d : Dispatcher) (m : Message) : List ReplyCall × Option PyErr :=
  if Message.is_text_message m then
    let pm := parse_mention d.bot_id d.alt_names (bodyGetS m.body (pyS "text"))
    scanListeners m pm.1 (directOf m) pm.2 d.listeners
  else ([], none)

/-- The action loop: `re.match(action['regex'], payload['callback_id'])`
(no `IGNORECASE` flag) over the registered actions in order; the first
match runs the handler and returns, an exhausted scan raises
`unknown action`. -/
def processActionGo (payload : Body) : List ActionRule → Except PyErr PyVal
  | [] => .error .unknownAction
  | a :: rest =>
    match a.regex.cs (bodyGetS payload (pyS "callback_id")) with
    | none => processActionGo payload rest
    | some caps => .ok (a.f payload caps)

/-- `Dispatcher.process_action(payload)`. -/
def Dispatcher.process_action (d : Dispatcher) (payload : Body) : Except PyErr PyVal :=
  processActionGo payload d.actions

/-- `Dispatcher.process_command(payload)`: exact-name lookup, raising
`Command ... not found` when absent (modelled via `Option` on the
lookup; no claim depends on the miss message). -/
def Dispatcher.process_command (d : Dispatcher) (payload : Body) : Option PyVal :=
  match assocGet d.commands (bodyGetS payload (pyS "command")) with
  | some f => some (f payload)
  | none => none

/-- The user-visible error reply text built by `Bot.process_message`:
`'Что-то пошло не так: ```{}```'.format(str(e))`. -/
def errReplyText (e : PyErr) : Str :=
  pyS "Что-то пошло не так: ```" ++ PyErr.toStr e ++ pyS "```"

/-- `Bot.process_message(msg)`: drop self-authored events
(`'bot_id' in msg`), wrap the payload in a `Message`, dispatch, and on
any exception run the cleanup hook (recorded as the boolean component)
and send the error-text reply; the traceback goes to the server log,
never to the user. No exception escapes. -/
def Bot.process_message (d : Dispatcher) (body : Body) : List ReplyCall × Bool :=
  if bodyHasKey body (pyS "bot_id") then ([], false)
  else
    let m : Message := ⟨body⟩
    match Dispatcher.process_message d m with
    | (calls, Option.none) => (calls, false)
    | (calls, some e) => (calls ++ [Message.reply m (.str (errReplyText e)) []], true)

/-! ## Helper lemmas -/

theorem takeWhile_append_cons {p : Char → Bool} :
    ∀ (l : List Char) (c : Char) (cs : List Char), (∀ x ∈ l, p x = true) → p c = false →
      (l ++ c :: cs).takeWhile p = l := by
  intro l c cs hl hc
  induction l with
  | nil => simp [List.takeWhile, hc]
  | cons a l ih =>
    have ha : p a = true := hl a (by simp)
    simp [List.takeWhile, ha]
    exact ih (fun x hx => hl x (by simp [hx]))

theorem dropWhile_append_cons {p : Char → Bool} :
    ∀ (l : List Char) (c : Char) (cs : List Char), (∀ x ∈ l, p x = true) → p c = false →
      (l ++ c :: cs).dropWhile p = c :: cs := by
  intro l c cs hl hc
  induction l with
  | nil => simp [List.dropWhile, hc]
  | cons a l ih =>
    have ha : p a = true := hl a (by simp)
    simp [List.dropWhile, ha]
    exact ih (fun x hx => hl x (by simp [hx]))

theorem parseMentionMatch_build (uid rest : Str)
    (h1 : uid ≠ []) (h2 : ∀ c ∈ uid, isWordChar c = true) :
    parseMentionMatch ('<' :: '@' :: (uid ++ '>' :: ' ' :: rest)) =
      some (uid, (rest.dropWhile pySpace).takeWhile dotChar) := by
  have hgt : isWordChar '>' = false := by decide
  have ht := takeWhile_append_cons uid '>' (' ' :: rest) h2 hgt
  have hd := dropWhile_append_cons uid '>' (' ' :: rest) h2 hgt
  simp only [parseMentionMatch, List.take, List.drop, ht, hd]
  simp [h1, List.dropWhile, show pySpace ' ' = true from rfl]

theorem dropPrefixCI_append :
    ∀ (name n2 x : Str), name.map Char.toLower = n2.map Char.toLower →
      dropPrefixCI name (n2 ++ x) = some x := by
  intro name
  induction name with
  | nil =>
    intro n2 x h
    have : n2 = [] := by
      cases n2 with
      | nil => rfl
      | cons c cs => simp at h
    subst this
    simp [dropPrefixCI]
  | cons n ns ih =>
    intro n2 x h
    cases n2 with
    | nil => simp at h
    | cons c cs =>
      simp only [List.map_cons, List.cons.injEq] at h
      simp [dropPrefixCI, h.1, ih cs x h.2]

theorem scanListeners_eq_fired (m : Message) (men dir : Bool) (text : Str) :
    ∀ ls : List Listener,
      scanListeners m men dir text ls =
        match firedListener men dir text ls with
        | some p => Listener.process p.2.1 m p.2.2
        | none =>
          if men || dir then ([Message.reply m (.str fallbackText) []], none)
          else ([], none) := by
  intro ls
  induction ls with
  | nil => simp [scanListeners, firedListener]
  | cons l ls ih =>
    by_cases hs : skipListener men dir l
    · simp only [scanListeners, firedListener, hs, if_pos, ih]
      cases firedListener men dir text ls <;> simp
    · cases hm : l.matchText text with
      | none =>
        simp only [scanListeners, firedListener, hs, if_neg, hm, ih]
        cases firedListener men dir text ls <;> simp
      | some caps =>
        simp [scanListeners, firedListener, hs, hm]

theorem firedListener_le (men dir : Bool) (text : Str) :
    ∀ (ls : List Listener) (i : Nat) (li : Listener),
      ls[i]? = some li → skipListener men dir li = false →
      (li.matchText text).isSome = true →
      ∃ k l c, firedListener men dir text ls = some (k, l, c) ∧ k ≤ i := by
  intro ls
  induction ls with
  | nil => intro i li h; simp at h
  | cons l ls ih =>
    intro i li hget hskip hmatch
    by_cases hs : skipListener men dir l
    · cases i with
      | zero =>
        simp at hget
        rw [hget] at hs
        rw [hs] at hskip
        exact absurd hskip (by simp)
      | succ j =>
        simp at hget
        obtain ⟨k, l2, c, hf, hk⟩ := ih j li hget hskip hmatch
        refine ⟨k + 1, l2, c, ?_, by omega⟩
        simp [firedListener, hs, hf]
    · cases hm : l.matchText text with
      | some caps =>
        refine ⟨0, l, caps, ?_, by omega⟩
        simp [firedListener, hs, hm]
      | none =>
        cases i with
        | zero =>
          simp at hget
          rw [hget] at hm
          rw [hm] at hmatch
          simp at hmatch
        | succ j =>
          simp at hget
          obtain ⟨k, l2, c, hf, hk⟩ := ih j li hget hskip hmatch
          refine ⟨k + 1, l2, c, ?_, by omega⟩
          simp [firedListener, hs, hm, hf]

theorem firedListener_some_props (men dir : Bool) (text : Str) :
    ∀ (ls : List Listener) (k : Nat) (l : Listener) (c : Caps),
      firedListener men dir text ls = some (k, l, c) →
      skipListener men dir l = false ∧ l.matchText text = some c := by
  intro ls
  induction ls with
  | nil => intro k l c h; simp [firedListener] at h
  | cons a ls ih =>
    intro k l c h
    by_cases hs : skipListener men dir a
    · simp only [firedListener, hs, if_pos] at h
      cases hf : firedListener men dir text ls with
      | none => rw [hf] at h; simp at h
      | some p =>
        obtain ⟨p1, p2, p3⟩ := p
        rw [hf] at h
        simp at h
        have := ih p1 p2 p3 hf
        rw [h.2.1, h.2.2] at this
        exact this
    · cases hm : a.matchText text with
      | some caps =>
        simp only [firedListener, hs, if_neg, hm] at h
        simp at h
        constructor
        · rw [← h.2.1]; exact eq_false_of_ne_true hs
        · rw [← h.2.1, ← h.2.2]; exact hm
      | none =>
        simp only [firedListener, hs, if_neg, hm] at h
        cases hf : firedListener men dir text ls with
        | none => rw [hf] at h; simp at h
        | some p =>
          obtain ⟨p1, p2, p3⟩ := p
          rw [hf] at h
          simp at h
          have := ih p1 p2 p3 hf
          rw [h.2.1, h.2.2] at this
          exact this

theorem firedListener_none (men dir : Bool) (text : Str) :
    ∀ ls : List Listener,
      (∀ l ∈ ls, skipListener men dir l = true ∨ l.matchText text = none) →
      firedListener men dir text ls = none := by
  intro ls
  induction ls with
  | nil => intro _; simp [firedListener]
  | cons a ls ih =>
    intro h
    have hrest := ih (fun l hl => h l (by simp [hl]))
    rcases h a (by simp) with ha | ha
    · simp [firedListener, ha, hrest]
    · by_cases hs : skipListener men dir a
      · simp [firedListener, hs, hrest]
      · simp [firedListener, hs, ha, hrest]

theorem assocGet_setKey_self {α : Type} (k : Str) (v : α) :
    ∀ l : List (Str × α), assocGet (setKey k v l) k = some v := by
  intro l
  induction l with
  | nil => simp [setKey, assocGet]
  | cons p rest ih =>
    by_cases h : p.1 = k
    · simp [setKey, h, assocGet]
    · simp [setKey, h, assocGet, ih]

theorem assocGet_setKey_other {α : Type} (k k2 : Str) (v : α) (h : k2 ≠ k) :
    ∀ l : List (Str × α), assocGet (setKey k v l) k2 = assocGet l k2 := by
  intro l
  induction l with
  | nil => simp [setKey, assocGet, Ne.symm h]
  | cons p rest ih =>
    by_cases hp : p.1 = k
    · have : k ≠ k2 := Ne.symm h
      simp [setKey, hp, assocGet, this, hp ▸ this]
    · simp only [setKey, hp, if_neg]
      by_cases hp2 : p.1 = k2
      · simp [assocGet, hp2]
      · simp [assocGet, hp2, ih]

theorem assocGet_removeKey_other {α : Type} (k k2 : Str) (h : k2 ≠ k) :
    ∀ l : List (Str × α), assocGet (removeKey k l) k2 = assocGet l k2 := by
  intro l
  induction l with
  | nil => simp [removeKey]
  | cons p rest ih =>
    obtain ⟨pk, pv⟩ := p
    by_cases hp : pk = k
    · rw [removeKey, if_pos hp, ih, assocGet, if_neg (by rw [hp]; exact Ne.symm h)]
    · rw [removeKey, if_neg hp]
      by_cases hp2 : pk = k2
      · rw [assocGet, if_pos hp2, assocGet, if_pos hp2]
      · rw [assocGet, if_neg hp2, assocGet, if_neg hp2, ih]

theorem hasKeyL_false_not_mem {α : Type} (k : Str) :
    ∀ l : List (Str × α), hasKeyL l k = false → k ∉ l.map Prod.fst := by
  intro l
  induction l with
  | nil => intro _; simp
  | cons p rest ih =>
    intro h
    by_cases hp : p.1 = k
    · simp [hasKeyL, hp] at h
    · simp only [hasKeyL, hp, if_neg] at h
      simp [ih h, Ne.symm hp]

/-! ## Concrete fixtures -/

/-- A well-formed unaddressed text-message payload in a regular channel. -/
def bodyA : Body :=
  [(pyS "type", pyS "message"), (pyS "text", pyS "hi there"),
   (pyS "channel", pyS "C1"), (pyS "channel_type", pyS "channel"),
   (pyS "user", pyS "U2"), (pyS "ts", pyS "1")]

/-- The `Message` wrapping `bodyA`. -/
def mA : Message := ⟨bodyA⟩

/-- The same text message delivered in the `app_home` (direct) context. -/
def mHome : Message :=
  ⟨[(pyS "type", pyS "message"), (pyS "text", pyS "hi there"),
    (pyS "channel", pyS "D1"), (pyS "channel_type", pyS "app_home"),
    (pyS "user", pyS "U2"), (pyS "ts", pyS "1")]⟩

/-! ## Claims -/

/-- Claim C1, counterexample to the claim as stated: two registered
listeners whose patterns both match the text, the earlier one
mention-only. On an unaddressed regular-channel message the earlier
listener is skipped and the later one fires (the reply carries the
second handler's text, not the first's), so "if both match, only L1
fires" fails without an eligibility condition. -/
theorem c1_counterexample :
    (Listener.matchText ⟨litRegex (pyS "hi"), fun _ _ => .str (pyS "one"), true⟩
      (pyS "hi there")).isSome = true ∧
    (Listener.matchText ⟨litRegex (pyS "hi"), fun _ _ => .str (pyS "two"), false⟩
      (pyS "hi there")).isSome = true ∧
    Dispatcher.process_message
      ⟨[⟨litRegex (pyS "hi"), fun _ _ => .str (pyS "one"), true⟩,
        ⟨litRegex (pyS "hi"), fun _ _ => .str (pyS "two"), false⟩], [], [], [], pyS "UBOT"⟩ mA =
      ([[(pyS "text", .str (pyS "two")), (pyS "channel", .str (pyS "C1"))]], none) :=
  ⟨rfl, rfl, rfl⟩

/-- Claim C1 (amended): for listeners L1 before L2 that both match the
mention-stripped text, if L1 is not skipped by the mention-only rule
then the listener that fires is at or before L1's position — in
particular L2 never fires — and `process_message` invokes exactly that
single listener's handler (at most one listener fires, since
`firedListener` is a single optional result). -/
theorem c1_first_match_amended (d : Dispatcher) (m : Message) (men : Bool) (text : Str)
    (i j : Nat) (li lj : Listener)
    (hij : i < j)
    (htm : Message.is_text_message m = true)
    (hp : parse_mention d.bot_id d.alt_names (bodyGetS m.body (pyS "text")) = (men, text))
    (hli : d.listeners[i]? = some li)
    (_hlj : d.listeners[j]? = some lj)
    (hski : skipListener men (directOf m) li = false)
    (hmi : (li.matchText text).isSome = true)
    (_hmj : (lj.matchText text).isSome = true) :
    ∃ k l c, firedListener men (directOf m) text d.listeners = some (k, l, c) ∧
      k ≤ i ∧ k < j ∧ Dispatcher.process_message d m = Listener.process l m c := by
  obtain ⟨k, l, c, hf, hk⟩ := firedListener_le men (directOf m) text d.listeners i li hli hski hmi
  refine ⟨k, l, c, hf, hk, by omega, ?_⟩
  have hscan := scanListeners_eq_fired m men (directOf m) text d.listeners
  rw [hf] at hscan
  calc Dispatcher.process_message d m
      = scanListeners m men (directOf m) text d.listeners := by
        simp [Dispatcher.process_message, htm, hp]
    _ = Listener.process l m c := hscan

/-- Claim C1, witness: two ordinary listeners both matching; the first
one fires and the scan stops. -/
theorem c1_witness :
    ∃ k l c,
      firedListener false (directOf mA) (pyS "hi there")
        [⟨litRegex (pyS "hi"), fun _ _ => .str (pyS "one"), false⟩,
         ⟨litRegex (pyS "hi"), fun _ _ => .str (pyS "two"), false⟩] = some (k, l, c) ∧
      k ≤ 0 ∧ k < 1 ∧
      Dispatcher.process_message
        ⟨[⟨litRegex (pyS "hi"), fun _ _ => .str (pyS "one"), false⟩,
          ⟨litRegex (pyS "hi"), fun _ _ => .str (pyS "two"), false⟩], [], [], [], pyS "UBOT"⟩ mA =
        Listener.process l mA c :=
  c1_first_match_amended
    ⟨[⟨litRegex (pyS "hi"), fun _ _ => .str (pyS "one"), false⟩,
      ⟨litRegex (pyS "hi"), fun _ _ => .str (pyS "two"), false⟩], [], [], [], pyS "UBOT"⟩
    mA false (pyS "hi there") 0 1
    ⟨litRegex (pyS "hi"), fun _ _ => .str (pyS "one"), false⟩
    ⟨litRegex (pyS "hi"), fun _ _ => .str (pyS "two"), false⟩
    (by omega) rfl rfl rfl rfl rfl rfl rfl

/-- Claim C2, counterexample to the claim as stated: with bot id `U123`
and input `"<@U123> hello\nworld"`, the capture group `(.*)` stops at
the newline, so the text used for rule matching is `"hello"`, not the
full remaining text `"hello\nworld"` after the prefix. -/
theorem c2_counterexample :
    parse_mention (pyS "U123") [] (pyS "<@U123> hello\nworld") = (true, pyS "hello") ∧
    pyS "hello" ≠ pyS "hello\nworld" :=
  ⟨rfl, by decide⟩

/-- Claim C2 (amended): `parse_mention` tries the explicit-id form
first and falls back to the alt-name forms. A leading mention token
carrying the configured bot id yields `mentioned = true` with, as the
matching text, the remainder after the prefix (whitespace after the
token is consumed into the prefix) truncated at the first newline; a
mention token carrying an unconfigured id yields `mentioned = false`
with the text unchanged provided no configured alternate name matches
the text as a comma-terminated prefix (otherwise the alt-name fallback
fires); a leading configured alternate name, matched case-
insensitively, followed by a comma and whitespace yields
`mentioned = true` with the text after the prefix, again truncated at
the first newline. -/
theorem c2_parse_mention_amended :
    (∀ (bid : Str) (alts : List Str) (rest : Str),
      bid ≠ [] → (∀ c ∈ bid, isWordChar c = true) →
      parse_mention bid alts ('<' :: '@' :: (bid ++ '>' :: ' ' :: rest)) =
        (true, (rest.dropWhile pySpace).takeWhile dotChar)) ∧
    (∀ (bid uid : Str) (alts : List Str) (rest : Str),
      uid ≠ [] → (∀ c ∈ uid, isWordChar c = true) → uid ≠ bid →
      altNamesMatch alts ('<' :: '@' :: (uid ++ '>' :: ' ' :: rest)) = none →
      parse_mention bid alts ('<' :: '@' :: (uid ++ '>' :: ' ' :: rest)) =
        (false, '<' :: '@' :: (uid ++ '>' :: ' ' :: rest))) ∧
    (∀ (bid : Str) (name n2 rest : Str),
      n2.map Char.toLower = name.map Char.toLower →
      parseMentionMatch (n2 ++ ',' :: rest) = none →
      parse_mention bid [name] (n2 ++ ',' :: rest) =
        (true, (rest.dropWhile pySpace).takeWhile dotChar)) := by
  refine ⟨?_, ?_, ?_⟩
  · intro bid alts rest h1 h2
    have hb := parseMentionMatch_build bid rest h1 h2
    simp [parse_mention, hb]
  · intro bid uid alts rest h1 h2 hne halt
    have hb := parseMentionMatch_build uid rest h1 h2
    simp only [parse_mention, hb]
    rw [if_neg hne]
    cases alts with
    | nil => simp [parseMentionAlt]
    | cons a as => simp [parseMentionAlt, halt]
  · intro bid name n2 rest hlow hpm
    have hd := dropPrefixCI_append name n2 (',' :: rest) hlow.symm
    simp [parse_mention, hpm, parseMentionAlt, altNamesMatch, altTryOne, hd]

/-- Claim C2, witness: the three parsing scenarios at concrete inputs
(`"<@U123> hello"` with bot id `U123`; `"<@U999> hello"` with an
unconfigured id; `"Bob, hello"` against configured alt name `"bob"`). -/
theorem c2_witness :
    parse_mention (pyS "U123") [] ('<' :: '@' :: (pyS "U123" ++ '>' :: ' ' :: pyS "hello")) =
      (true, ((pyS "hello").dropWhile pySpace).takeWhile dotChar) ∧
    parse_mention (pyS "U123") [pyS "bob"]
        ('<' :: '@' :: (pyS "U999" ++ '>' :: ' ' :: pyS "hello")) =
      (false, '<' :: '@' :: (pyS "U999" ++ '>' :: ' ' :: pyS "hello")) ∧
    parse_mention (pyS "U123") [pyS "bob"] (pyS "Bob" ++ ',' :: pyS " hello") =
      (true, ((pyS " hello").dropWhile pySpace).takeWhile dotChar) :=
  ⟨c2_parse_mention_amended.1 (pyS "U123") [] (pyS "hello") (by decide) (by decide),
   c2_parse_mention_amended.2.1 (pyS "U123") (pyS "U999") [pyS "bob"] (pyS "hello")
     (by decide) (by decide) (by decide) rfl,
   c2_parse_mention_amended.2.2 (pyS "U123") (pyS "bob") (pyS "Bob") (pyS " hello")
     (by decide) rfl⟩

/-- Claim C3, counterexample to the claim as stated: a handler
returning the integer `0` (a value of "any other type") raises nothing
and sends nothing — the `elif result:` guard only raises for truthy
values. -/
theorem c3_counterexample :
    Listener.process ⟨litRegex (pyS "x"), fun _ _ => .int 0, false⟩ mA [] = ([], none) :=
  rfl

/-- Claim C3 (amended): a `None` return sends no reply; a string return
causes exactly one reply call with that string verbatim as the text; a
truthy return of any other type raises the handler-contract error
(`Bad listener result`), which the dispatcher loop propagates to its
caller unswallowed; a falsy return of another type sends no reply and
raises nothing. -/
theorem c3_handler_result_amended :
    (∀ (l : Listener) (m : Message) (caps : Caps),
      l.f m caps = .pnone → Listener.process l m caps = ([], none)) ∧
    (∀ (l : Listener) (m : Message) (caps : Caps) (s : Str),
      l.f m caps = .str s →
      Listener.process l m caps = ([Message.reply m (.str s) []], none)) ∧
    (∀ (l : Listener) (m : Message) (caps : Caps) (v : PyVal),
      l.f m caps = v → isStr v = false → isDict v = false → truthy v = true →
      Listener.process l m caps = ([], some (.badListenerResult v))) ∧
    (∀ (d : Dispatcher) (m : Message) (men : Bool) (text : Str) (k : Nat) (l : Listener)
      (caps : Caps) (calls : List ReplyCall) (e : PyErr),
      Message.is_text_message m = true →
      parse_mention d.bot_id d.alt_names (bodyGetS m.body (pyS "text")) = (men, text) →
      firedListener men (directOf m) text d.listeners = some (k, l, caps) →
      Listener.process l m caps = (calls, some e) →
      Dispatcher.process_message d m = (calls, some e)) := by
  refine ⟨?_, ?_, ?_, ?_⟩
  · intro l m caps h
    simp [Listener.process, h, truthy]
  · intro l m caps s h
    simp [Listener.process, h]
  · intro l m caps v h hs hd ht
    cases v <;> simp_all [Listener.process, truthy, isStr, isDict]
  · intro d m men text k l caps calls e htm hp hf hproc
    have hscan := scanListeners_eq_fired m men (directOf m) text d.listeners
    rw [hf] at hscan
    calc Dispatcher.process_message d m
        = scanListeners m men (directOf m) text d.listeners := by
          simp [Dispatcher.process_message, htm, hp]
      _ = Listener.process l m caps := hscan
      _ = (calls, some e) := hproc

/-- Claim C3, witness: the three return shapes at concrete handlers,
and the propagation of the handler-contract error through
`process_message`. -/
theorem c3_witness :
    Listener.process ⟨litRegex (pyS "x"), fun _ _ => .pnone, false⟩ mA [] = ([], none) ∧
    Listener.process ⟨litRegex (pyS "x"), fun _ _ => .str (pyS "ok"), false⟩ mA [] =
      ([Message.reply mA (.str (pyS "ok")) []], none) ∧
    Listener.process ⟨litRegex (pyS "x"), fun _ _ => .int 5, false⟩ mA [] =
      ([], some (.badListenerResult (.int 5))) ∧
    Dispatcher.process_message
      ⟨[⟨litRegex (pyS "hi"), fun _ _ => .int 5, false⟩], [], [], [], pyS "UBOT"⟩ mA =
      ([], some (.badListenerResult (.int 5))) :=
  ⟨c3_handler_result_amended.1 ⟨litRegex (pyS "x"), fun _ _ => .pnone, false⟩ mA [] rfl,
   c3_handler_result_amended.2.1 ⟨litRegex (pyS "x"), fun _ _ => .str (pyS "ok"), false⟩
     mA [] (pyS "ok") rfl,
   c3_handler_result_amended.2.2.1 ⟨litRegex (pyS "x"), fun _ _ => .int 5, false⟩
     mA [] (.int 5) rfl rfl rfl rfl,
   c3_handler_result_amended.2.2.2
     ⟨[⟨litRegex (pyS "hi"), fun _ _ => .int 5, false⟩], [], [], [], pyS "UBOT"⟩
     mA false (pyS "hi there") 0 ⟨litRegex (pyS "hi"), fun _ _ => .int 5, false⟩
     [] [] (.badListenerResult (.int 5)) rfl rfl rfl rfl⟩

/-- Claim C4: for every text message on which no listener fires (each
registered listener is either skipped by the mention-only rule or fails
to match), `process_message` sends exactly one reply carrying the fixed
fallback text when the message was mentioned or direct, and sends no
reply otherwise. -/
theorem c4_fallback_reply (d : Dispatcher) (m : Message) (men : Bool) (text : Str)
    (htm : Message.is_text_message m = true)
    (hp : parse_mention d.bot_id d.alt_names (bodyGetS m.body (pyS "text")) = (men, text))
    (hnone : ∀ l ∈ d.listeners,
      skipListener men (directOf m) l = true ∨ l.matchText text = none) :
    Dispatcher.process_message d m =
      if men || directOf m then ([Message.reply m (.str fallbackText) []], none)
      else ([], none) := by
  have hf := firedListener_none men (directOf m) text d.listeners hnone
  have hscan := scanListeners_eq_fired m men (directOf m) text d.listeners
  rw [hf] at hscan
  calc Dispatcher.process_message d m
      = scanListeners m men (directOf m) text d.listeners := by
        simp [Dispatcher.process_message, htm, hp]
    _ = _ := hscan

/-- Claim C4, witness: a mentioned message with no listeners gets
exactly the fallback reply; an unaddressed message matched by no
listener gets no reply. -/
theorem c4_witness :
    Dispatcher.process_message ⟨[], [], [], [], pyS "U1"⟩
      ⟨[(pyS "type", pyS "message"), (pyS "text", pyS "<@U1> huh"),
        (pyS "channel", pyS "C1"), (pyS "channel_type", pyS "channel")]⟩ =
      ([Message.reply
          ⟨[(pyS "type", pyS "message"), (pyS "text", pyS "<@U1> huh"),
            (pyS "channel", pyS "C1"), (pyS "channel_type", pyS "channel")]⟩
          (.str fallbackText) []], none) ∧
    Dispatcher.process_message
      ⟨[⟨litRegex (pyS "zz"), fun _ _ => .pnone, false⟩], [], [], [], pyS "U1"⟩ mA =
      ([], none) :=
  ⟨(c4_fallback_reply ⟨[], [], [], [], pyS "U1"⟩
      ⟨[(pyS "type", pyS "message"), (pyS "text", pyS "<@U1> huh"),
        (pyS "channel", pyS "C1"), (pyS "channel_type", pyS "channel")]⟩
      true (pyS "huh") rfl rfl (by intro l hl; simp at hl)).trans rfl,
   (c4_fallback_reply
      ⟨[⟨litRegex (pyS "zz"), fun _ _ => .pnone, false⟩], [], [], [], pyS "U1"⟩
      mA false (pyS "hi there") rfl rfl
      (by
        intro l hl
        rw [List.mem_singleton] at hl
        subst hl
        exact Or.inr rfl)).trans rfl⟩

/-- Claim C5: a mention-only listener never fires on an unaddressed
message in a regular channel (whatever fires there is not
mention-only), and on a direct-context (`app_home`) message a matching
mention-only listener fires even without an explicit mention. -/
theorem c5_mention_only :
    (∀ (d : Dispatcher) (m : Message) (text : Str) (k : Nat) (l : Listener) (c : Caps),
      parse_mention d.bot_id d.alt_names (bodyGetS m.body (pyS "text")) = (false, text) →
      directOf m = false →
      firedListener false (directOf m) text d.listeners = some (k, l, c) →
      l.mention_only = false) ∧
    (∀ (bid : Str) (alts : List Str) (l : Listener) (m : Message) (men : Bool) (text : Str)
      (caps : Caps),
      Message.is_text_message m = true →
      directOf m = true →
      parse_mention bid alts (bodyGetS m.body (pyS "text")) = (men, text) →
      l.matchText text = some caps →
      Dispatcher.process_message ⟨[l], [], [], alts, bid⟩ m = Listener.process l m caps) := by
  constructor
  · intro d m text k l c _hp hd hf
    have hprops := (firedListener_some_props false (directOf m) text d.listeners k l c hf).1
    rw [hd] at hprops
    simpa [skipListener] using hprops
  · intro bid alts l m men text caps htm hdir hp hm
    simp [Dispatcher.process_message, htm, hp, scanListeners, skipListener, hdir, hm]

/-- Claim C5, witness: on the unaddressed regular-channel message the
fired listener is the non-mention-only one; on the `app_home` message a
single mention-only listener fires without a mention. -/
theorem c5_witness :
    Listener.mention_only ⟨litRegex (pyS "hi"), fun _ _ => .str (pyS "two"), false⟩ = false ∧
    Dispatcher.process_message
      ⟨[⟨litRegex (pyS "hi"), fun _ _ => .str (pyS "yo"), true⟩], [], [], [], pyS "UBOT"⟩
      mHome =
      Listener.process ⟨litRegex (pyS "hi"), fun _ _ => .str (pyS "yo"), true⟩ mHome [] :=
  ⟨c5_mention_only.1
     ⟨[⟨litRegex (pyS "hi"), fun _ _ => .str (pyS "one"), true⟩,
       ⟨litRegex (pyS "hi"), fun _ _ => .str (pyS "two"), false⟩], [], [], [], pyS "UBOT"⟩
     mA (pyS "hi there") 1 ⟨litRegex (pyS "hi"), fun _ _ => .str (pyS "two"), false⟩ []
     rfl rfl rfl,
   c5_mention_only.2 (pyS "UBOT") [] ⟨litRegex (pyS "hi"), fun _ _ => .str (pyS "yo"), true⟩
     mHome false (pyS "hi there") [] rfl rfl rfl rfl⟩

/-- Claim C6, counterexample to the claim as stated: a handler
returning `{'text': 'x', 'channel': 'other'}` does not get its
`channel` key forwarded unmodified — `Message.reply` overwrites it with
the originating channel id (`C1`). -/
theorem c6_counterexample :
    Listener.process
      ⟨litRegex (pyS "go"),
       fun _ _ => .dict [(pyS "text", .str (pyS "x")), (pyS "channel", .str (pyS "other"))],
       false⟩ mA [] =
      ([[(pyS "channel", .str (pyS "C1")), (pyS "text", .str (pyS "x"))]], none) ∧
    pyS "C1" ≠ pyS "other" :=
  ⟨rfl, by decide⟩

/-- A key other than `channel` (and other than `thread_ts` when the
source event is threaded) reads the same from the final reply-call
argument map as from the map `msg.reply` was splatted with. -/
theorem reply_assocGet_other (m : Message) (t : PyVal) (kwargs : List (Str × PyVal)) (k : Str)
    (hkc : k ≠ pyS "channel")
    (hkt : k = pyS "thread_ts" → bodyHasKey m.body (pyS "thread_ts") = false) :
    assocGet (Message.reply m t kwargs) k = assocGet (setKey (pyS "text") t kwargs) k := by
  by_cases hth : bodyHasKey m.body (pyS "thread_ts") = true
  · have hk2 : k ≠ pyS "thread_ts" := by
      intro heq
      rw [hkt heq] at hth
      exact absurd hth (by decide)
    simp only [Message.reply, hth, if_true]
    rw [assocGet_setKey_other _ _ _ hk2, assocGet_setKey_other _ _ _ hkc]
  · simp only [Message.reply, hth, Bool.false_eq_true, if_false]
    rw [assocGet_setKey_other _ _ _ hkc]

/-- Claim C6 (amended): for a handler returning a structured reply map
containing a `text` key, every key except `channel` — and except
`thread_ts` when the source event carries one — is forwarded to the
reply call with its value unmodified; the `channel` key is always set
to the originating channel id, and `thread_ts` is overwritten with the
source event's thread when present. -/
theorem c6_dict_forward_amended (m : Message) (dd : List (Str × PyVal)) (t : PyVal)
    (r : Regex) (mo : Bool) (caps : Caps)
    (ht : assocGet dd (pyS "text") = some t) :
    ∃ args, Listener.process ⟨r, fun _ _ => .dict dd, mo⟩ m caps = ([args], none) ∧
      (∀ k v, assocGet dd k = some v → k ≠ pyS "channel" →
        (k = pyS "thread_ts" → bodyHasKey m.body (pyS "thread_ts") = false) →
        assocGet args k = some v) ∧
      assocGet args (pyS "channel") = some (.str (bodyGetS m.body (pyS "channel"))) ∧
      (bodyHasKey m.body (pyS "thread_ts") = true →
        assocGet args (pyS "thread_ts") =
          some (.str (bodyGetS m.body (pyS "thread_ts")))) := by
  refine ⟨Message.reply m t (removeKey (pyS "text") dd), ?_, ?_, ?_, ?_⟩
  · simp [Listener.process, ht]
  · intro k v hk hkc hkt
    rw [reply_assocGet_other m t _ k hkc hkt]
    by_cases hkx : k = pyS "text"
    · subst hkx
      rw [assocGet_setKey_self]
      rw [hk] at ht
      exact ht.symm ▸ rfl
    · rw [assocGet_setKey_other _ _ _ hkx, assocGet_removeKey_other _ _ hkx, hk]
  · by_cases hth : bodyHasKey m.body (pyS "thread_ts") = true
    · simp only [Message.reply, hth, if_true]
      rw [assocGet_setKey_other _ _ _ (by decide), assocGet_setKey_self]
    · simp only [Message.reply, hth, Bool.false_eq_true, if_false]
      rw [assocGet_setKey_self]
  · intro hth
    simp only [Message.reply, hth, if_true]
    rw [assocGet_setKey_self]

/-- Claim C6, witness: the spec's own example map
`{'text': 'x', 'icon': 'y'}` on a concrete message. -/
theorem c6_witness :
    ∃ args,
      Listener.process
        ⟨litRegex (pyS "go"),
         fun _ _ => .dict [(pyS "text", .str (pyS "x")), (pyS "icon", .str (pyS "y"))],
         false⟩ mA [] = ([args], none) ∧
      (∀ k v,
        assocGet [(pyS "text", PyVal.str (pyS "x")), (pyS "icon", PyVal.str (pyS "y"))] k =
          some v →
        k ≠ pyS "channel" →
        (k = pyS "thread_ts" → bodyHasKey mA.body (pyS "thread_ts") = false) →
        assocGet args k = some v) ∧
      assocGet args (pyS "channel") = some (.str (bodyGetS mA.body (pyS "channel"))) ∧
      (bodyHasKey mA.body (pyS "thread_ts") = true →
        assocGet args (pyS "thread_ts") =
          some (.str (bodyGetS mA.body (pyS "thread_ts")))) :=
  c6_dict_forward_amended mA
    [(pyS "text", .str (pyS "x")), (pyS "icon", .str (pyS "y"))]
    (.str (pyS "x")) (litRegex (pyS "go")) false [] rfl

/-- Claim C7, counterexample to the claim as stated: the listener
contract is case-insensitive (`re.IGNORECASE`), but `process_action`
matches the same pattern case-sensitively — pattern `hi` matches
callback id `HI` under the listener contract, yet action dispatch
raises `unknown action` on it. -/
theorem c7_counterexample :
    (Listener.matchText ⟨litRegex (pyS "hi"), fun _ _ => .pnone, false⟩ (pyS "HI")).isSome =
      true ∧
    Dispatcher.process_action
      ⟨[], [⟨litRegex (pyS "hi"), fun _ _ => .str (pyS "acted")⟩], [], [], pyS "U"⟩
      [(pyS "callback_id", pyS "HI")] = .error .unknownAction :=
  ⟨rfl, rfl⟩

/-- The action loop raises `unknown action` exactly when no registered
pattern matches the callback id. -/
theorem processActionGo_error_iff (payload : Body) :
    ∀ acts : List ActionRule,
      (∀ a ∈ acts, a.regex.cs (bodyGetS payload (pyS "callback_id")) = none) ↔
        processActionGo payload acts = .error .unknownAction := by
  intro acts
  induction acts with
  | nil => simp [processActionGo]
  | cons a rest ih =>
    cases hm : a.regex.cs (bodyGetS payload (pyS "callback_id")) with
    | none => simp [processActionGo, hm, List.forall_mem_cons, ih]
    | some caps => simp [processActionGo, hm, List.forall_mem_cons]

/-- The action loop invokes the first matching action's handler. -/
theorem processActionGo_first (payload : Body) (a : ActionRule) (caps : Caps) :
    ∀ (pre post : List ActionRule),
      (∀ b ∈ pre, b.regex.cs (bodyGetS payload (pyS "callback_id")) = none) →
      a.regex.cs (bodyGetS payload (pyS "callback_id")) = some caps →
      processActionGo payload (pre ++ a :: post) = .ok (a.f payload caps) := by
  intro pre
  induction pre with
  | nil =>
    intro post _ hm
    simp [processActionGo, hm]
  | cons b rest ih =>
    intro post h hm
    have hb := h b (by simp)
    simp only [List.cons_append, processActionGo, hb]
    exact ih post (fun x hx => h x (by simp [hx])) hm

/-- Claim C7 (amended): `process_action` applies a case-sensitive
prefix regex match (unlike the case-insensitive listener contract) to
the payload's `callback_id`, invokes the first matching action's
handler, and raises `unknown action` if and only if no registered
action pattern matches. -/
theorem c7_process_action_amended :
    (∀ (d : Dispatcher) (payload : Body),
      (∀ a ∈ d.actions, a.regex.cs (bodyGetS payload (pyS "callback_id")) = none) ↔
        Dispatcher.process_action d payload = .error .unknownAction) ∧
    (∀ (d : Dispatcher) (payload : Body) (pre post : List ActionRule) (a : ActionRule)
      (caps : Caps),
      d.actions = pre ++ a :: post →
      (∀ b ∈ pre, b.regex.cs (bodyGetS payload (pyS "callback_id")) = none) →
      a.regex.cs (bodyGetS payload (pyS "callback_id")) = some caps →
      Dispatcher.process_action d payload = .ok (a.f payload caps)) := by
  constructor
  · intro d payload
    exact processActionGo_error_iff payload d.actions
  · intro d payload pre post a caps hacts hpre hm
    rw [Dispatcher.process_action, hacts]
    exact processActionGo_first payload a caps pre post hpre hm

/-- Claim C7, witness: an empty action table raises `unknown action`;
a matching action's handler is invoked on its payload. -/
theorem c7_witness :
    Dispatcher.process_action ⟨[], [], [], [], pyS "U"⟩ [(pyS "callback_id", pyS "x")] =
      .error .unknownAction ∧
    Dispatcher.process_action
      ⟨[], [⟨litRegex (pyS "de"), fun _ _ => .str (pyS "did")⟩], [], [], pyS "U"⟩
      [(pyS "callback_id", pyS "deploy")] = .ok (.str (pyS "did")) :=
  ⟨(c7_process_action_amended.1 ⟨[], [], [], [], pyS "U"⟩
      [(pyS "callback_id", pyS "x")]).mp (by simp),
   c7_process_action_amended.2
     ⟨[], [⟨litRegex (pyS "de"), fun _ _ => .str (pyS "did")⟩], [], [], pyS "U"⟩
     [(pyS "callback_id", pyS "deploy")] [] []
     ⟨litRegex (pyS "de"), fun _ _ => .str (pyS "did")⟩ [] rfl (by simp) rfl⟩

/-- Claim C8: registering a command under a name already present in the
command map fails with `Duplicate command` at registration time and
leaves no trace (the error is returned instead of a new state, before
any dispatch is involved); a successful registration appends the new
binding, and name uniqueness of the command map is preserved. -/
theorem c8_register_command :
    (∀ (d : Dispatcher) (name : Str) (f : Body → PyVal),
      hasKeyL d.commands name = true →
      Dispatcher.register_command d name f = .error (.duplicateCommand name)) ∧
    (∀ (d : Dispatcher) (name : Str) (f : Body → PyVal) (d2 : Dispatcher),
      Dispatcher.register_command d name f = .ok d2 →
      hasKeyL d.commands name = false ∧ d2.commands = d.commands ++ [(name, f)]) ∧
    (∀ (d : Dispatcher) (name : Str) (f : Body → PyVal) (d2 : Dispatcher),
      (d.commands.map Prod.fst).Nodup →
      Dispatcher.register_command d name f = .ok d2 →
      (d2.commands.map Prod.fst).Nodup) := by
  refine ⟨?_, ?_, ?_⟩
  · intro d name f h
    simp [Dispatcher.register_command, h]
  · intro d name f d2 hok
    by_cases hk : hasKeyL d.commands name = true
    · simp [Dispatcher.register_command, hk] at hok
    · refine ⟨eq_false_of_ne_true hk, ?_⟩
      simp only [Dispatcher.register_command, hk, Bool.false_eq_true, if_false, Except.ok.injEq] at hok
      rw [← hok]
  · intro d name f d2 hnd hok
    by_cases hk : hasKeyL d.commands name = true
    · simp [Dispatcher.register_command, hk] at hok
    · simp only [Dispatcher.register_command, hk, Bool.false_eq_true, if_false, Except.ok.injEq] at hok
      have hmem := hasKeyL_false_not_mem name d.commands (eq_false_of_ne_true hk)
      rw [← hok]
      simp only [List.map_append, List.map_cons, List.map_nil]
      refine List.Nodup.append hnd (by simp) ?_
      simp [List.disjoint_right, hmem]

/-- Claim C8, witness: re-registering `deploy` fails with the duplicate
error; a fresh registration succeeds, appends, and keeps the key list
duplicate-free. -/
theorem c8_witness :
    Dispatcher.register_command
      ⟨[], [], [(pyS "deploy", fun _ => PyVal.pnone)], [], pyS "U"⟩
      (pyS "deploy") (fun _ => PyVal.pnone) =
      .error (.duplicateCommand (pyS "deploy")) ∧
    (hasKeyL ([] : List (Str × (Body → PyVal))) (pyS "deploy") = false ∧
      Dispatcher.commands ⟨[], [], [(pyS "deploy", fun _ => PyVal.pnone)], [], pyS "U"⟩ =
        [] ++ [(pyS "deploy", fun _ => PyVal.pnone)]) ∧
    ((Dispatcher.commands
        ⟨[], [], [(pyS "deploy", fun _ => PyVal.pnone)], [], pyS "U"⟩).map Prod.fst).Nodup :=
  ⟨c8_register_command.1
     ⟨[], [], [(pyS "deploy", fun _ => PyVal.pnone)], [], pyS "U"⟩
     (pyS "deploy") (fun _ => PyVal.pnone) rfl,
   c8_register_command.2.1 ⟨[], [], [], [], pyS "U"⟩ (pyS "deploy") (fun _ => PyVal.pnone)
     ⟨[], [], [(pyS "deploy", fun _ => PyVal.pnone)], [], pyS "U"⟩ rfl,
   c8_register_command.2.2 ⟨[], [], [], [], pyS "U"⟩ (pyS "deploy") (fun _ => PyVal.pnone)
     ⟨[], [], [(pyS "deploy", fun _ => PyVal.pnone)], [], pyS "U"⟩ (by simp) rfl⟩

/-- Claim C9: every error raised while dispatching a message is caught
by `Bot.process_message`, which triggers the cleanup hook and sends one
additional user-visible reply whose text embeds the error's string form
(no exception escapes — the result type of the model carries none — and
the reply carries only `str(e)`, not a stack trace). -/
theorem c9_error_reply (d : Dispatcher) (body : Body) (calls : List ReplyCall) (e : PyErr)
    (hb : bodyHasKey body (pyS "bot_id") = false)
    (hd : Dispatcher.process_message d ⟨body⟩ = (calls, some e)) :
    Bot.process_message d body =
      (calls ++ [Message.reply ⟨body⟩ (.str (errReplyText e)) []], true) ∧
    PyErr.toStr e <:+: errReplyText e := by
  constructor
  · simp [Bot.process_message, hb, hd]
  · exact ⟨pyS "Что-то пошло не так: ```", pyS "```", rfl⟩

/-- Claim C9, witness: a handler returning the truthy integer `1`
raises the handler-contract error, and the Bot layer converts it into
the error-text reply with the cleanup hook triggered. -/
theorem c9_witness :
    Bot.process_message
      ⟨[⟨litRegex (pyS "hi"), fun _ _ => .int 1, false⟩], [], [], [], pyS "UBOT"⟩ bodyA =
      ([] ++ [Message.reply ⟨bodyA⟩
        (.str (errReplyText (.badListenerResult (.int 1)))) []], true) ∧
    PyErr.toStr (.badListenerResult (.int 1)) <:+:
      errReplyText (.badListenerResult (.int 1)) :=
  c9_error_reply
    ⟨[⟨litRegex (pyS "hi"), fun _ _ => .int 1, false⟩], [], [], [], pyS "UBOT"⟩
    bodyA [] (.badListenerResult (.int 1)) rfl rfl

/-- Claim C10: a handler return value that is neither a string nor a
dict but is falsy (`0`, `False`, the empty list, `None`) makes
`Listener.process` send no reply and raise no error; conversely the
`Bad listener result` branch is reached only for truthy values of
non-string non-dict type, and it sends no reply. -/
theorem c10_falsy_result :
    (∀ (l : Listener) (m : Message) (caps : Caps) (v : PyVal),
      l.f m caps = v → isStr v = false → isDict v = false → truthy v = false →
      Listener.process l m caps = ([], none)) ∧
    (∀ (l : Listener) (m : Message) (caps : Caps) (calls : List ReplyCall) (v : PyVal),
      Listener.process l m caps = (calls, some (.badListenerResult v)) →
      truthy v = true ∧ isStr v = false ∧ isDict v = false ∧ calls = []) := by
  constructor
  · intro l m caps v h hs hd ht
    cases v <;> simp_all [Listener.process, truthy, isStr, isDict]
  · intro l m caps calls v h
    cases hv : l.f m caps with
    | str s => simp [Listener.process, hv] at h
    | dict dd =>
      cases hg : assocGet dd (pyS "text") with
      | some t => simp [Listener.process, hv, hg] at h
      | none => simp [Listener.process, hv, hg] at h
    | pnone => simp [Listener.process, hv, truthy] at h
    | int n =>
      by_cases ht : truthy (.int n) = true
      · simp only [Listener.process, hv, ht, if_true] at h
        simp only [Prod.mk.injEq, Option.some.injEq, PyErr.badListenerResult.injEq] at h
        exact ⟨h.2 ▸ ht, h.2 ▸ rfl, h.2 ▸ rfl, h.1.symm⟩
      · simp [Listener.process, hv, ht] at h
    | bool b =>
      by_cases ht : truthy (.bool b) = true
      · simp only [Listener.process, hv, ht, if_true] at h
        simp only [Prod.mk.injEq, Option.some.injEq, PyErr.badListenerResult.injEq] at h
        exact ⟨h.2 ▸ ht, h.2 ▸ rfl, h.2 ▸ rfl, h.1.symm⟩
      · simp [Listener.process, hv, ht] at h
    | list es =>
      by_cases ht : truthy (.list es) = true
      · simp only [Listener.process, hv, ht, if_true] at h
        simp only [Prod.mk.injEq, Option.some.injEq, PyErr.badListenerResult.injEq] at h
        exact ⟨h.2 ▸ ht, h.2 ▸ rfl, h.2 ▸ rfl, h.1.symm⟩
      · simp [Listener.process, hv, ht] at h

/-- Claim C10, witness: a handler returning the empty list sends no
reply and raises nothing; a handler returning `2` reaches the
contract-violation branch with a truthy non-string non-dict value and
no reply. -/
theorem c10_witness :
    Listener.process ⟨litRegex (pyS "x"), fun _ _ => .list [], false⟩ mA [] = ([], none) ∧
    (truthy (.int 2) = true ∧ isStr (.int 2) = false ∧ isDict (.int 2) = false ∧
      ([] : List ReplyCall) = []) :=
  ⟨c10_falsy_result.1 ⟨litRegex (pyS "x"), fun _ _ => .list [], false⟩ mA [] (.list [])
     rfl rfl rfl rfl,
   c10_falsy_result.2 ⟨litRegex (pyS "x"), fun _ _ => .int 2, false⟩ mA [] [] (.int 2) rfl⟩

end Slappy
